import Mathlib

/-!
Verification of the ctf-autopilot execution pipeline.

This file gives a shallow embedding of the pipeline components of the
repository (`apps/api/app/services/sandbox_service.py`,
`apps/api/app/services/evidence_service.py`, `apps/api/app/tasks.py`,
`apps/api/app/websocket.py`, `apps/api/app/services/job_service.py`,
`apps/api/app/routers/jobs.py`) and proves the spec's claims about them.

Modelling conventions:
- Python strings are Lean `String`s; character-level operations are done on
  `String.data` (`List Char`) with structural recursion so that every
  definition evaluates by kernel reduction.
- Python's `str.isalnum` / `str.isspace` / `str.lower` are modelled by
  `Char.isAlphanum` / `Char.isWhitespace` / `Char.toLower` (the ASCII
  fragment, which is what the analysed inputs and all security-relevant
  characters live in).
- Float confidence scores are exact multiples of 0.1 in the source
  (base 0.5, bonuses/penalties 0.2/0.3, clamp bounds 0.1/1.0); they are
  modelled exactly as integers scaled by 10, which preserves all order
  comparisons the claims are about.
- The Docker isolation backend is a parameter: `runCommand` returns, next to
  its structured result, the list of container invocations it issued, so
  "no container is created" is the statement that this list is empty.
-/

namespace CTFA

/-- Split a character list at every occurrence of `sep`
(models Python `str.split(sep)` for a one-character separator:
`"".split(sep) = [""]`, separators at the ends yield empty pieces). -/
def splitOnChar (sep : Char) : List Char → List (List Char)
  | [] => [[]]
  | c :: rest =>
    let r := splitOnChar sep rest
    if c = sep then [] :: r
    else
      match r with
      | [] => [[c]]
      | h :: t => (c :: h) :: t

/-- `needle in hay` on character lists (Python's substring test). -/
def containsSubL (needle : List Char) : List Char → Bool
  | [] => needle.isEmpty
  | c :: rest => needle.isPrefixOf (c :: rest) || containsSubL needle rest

/-- Python `needle in hay` on strings. -/
def strContains (hay needle : String) : Bool :=
  containsSubL needle.data hay.data

/-- Does the string start with the single character `c`
(Python `s.startswith(c)` for a one-character prefix)? -/
def headIsChar (s : String) (c : Char) : Bool :=
  match s.data with
  | [] => false
  | h :: _ => h = c

/-- Does the string end with the single character `c`? -/
def lastIsChar (s : String) (c : Char) : Bool :=
  match s.data.getLast? with
  | none => false
  | some h => h = c

/-- The left-brace character, written via its code point. -/
def lbrace : Char := Char.ofNat 123

/-- The right-brace character, written via its code point. -/
def rbrace : Char := Char.ofNat 125

/-- `pathlib.Path(s).name`: the final path component. `pathlib` drops empty
and `"."` components and does not resolve `".."`, so the name is the last
component of the slash-split list after that filtering (empty when none). -/
def pathName (s : String) : String :=
  let comps := (splitOnChar '/' s.data).filter (fun c => !c.isEmpty && !(c == ['.']))
  String.mk (comps.getLastD [])

/-- `pathlib.Path(s).suffix`: the last-dot extension of the final component;
CPython returns `name[i:]` for `i = name.rfind('.')` when `0 < i < len-1`,
else the empty string. -/
def pathSuffix (s : String) : String :=
  let name := (pathName s).data
  let n := name.length
  match name.reverse.findIdx? (fun c => c == '.') with
  | some j =>
    let i := n - 1 - j
    if 0 < i ∧ i < n - 1 then String.mk (name.drop i) else ""
  | none => ""

/-- Python `str.lower()` (ASCII fragment). -/
def lowerStr (s : String) : String :=
  String.mk (s.data.map Char.toLower)

/-! ## SandboxService (`apps/api/app/services/sandbox_service.py`) -/

/-- The fixed allowlist `SandboxService.allowed_tools`
(sandbox_service.py lines 20-81), in source order. -/
def allowedTools : List String := [
  -- Binary analysis
  "strings", "file", "readelf", "objdump", "nm", "size", "ldd", "checksec",
  -- Hex/Binary viewing
  "xxd", "hexdump", "od",
  -- Encoding/Decoding
  "base64", "base32", "openssl",
  -- Image/Media forensics
  "exiftool", "identify", "convert", "steghide", "zsteg", "stegseek",
  "stegcracker", "foremost", "binwalk",
  -- PDF analysis
  "pdfinfo", "pdftotext", "pdfimages", "pdftk",
  -- Network analysis
  "tshark", "tcpdump", "ssldump",
  -- Archive handling
  "unzip", "zipinfo", "tar", "gzip", "gunzip", "bzip2", "xz", "7z", "7za",
  "unrar", "cabextract", "fcrackzip", "zip2john", "rar2john",
  -- Text processing
  "head", "tail", "cat", "wc", "grep", "egrep", "awk", "gawk", "sed",
  "cut", "sort", "uniq", "tr", "rev", "fold", "column",
  -- File system
  "find", "ls", "stat",
  -- Hashing
  "sha256sum", "sha1sum", "md5sum", "sha512sum", "cksum",
  -- Python for scripting (with pip support)
  "python3", "python", "pip3", "pip",
  -- Crypto analysis
  "john", "hashcat", "hash-identifier", "name-that-hash", "nth",
  "factordb-cli", "rsatool", "RsaCtfTool", "xortool", "ciphey",
  -- Memory/Disk forensics
  "volatility", "volatility3", "vol3", "bulk_extractor", "photorec", "testdisk",
  -- Reverse engineering
  "radare2", "r2", "rabin2", "rasm2", "rafind2", "rahash2", "r2pipe",
  "retdec-decompiler", "retdec-fileinfo", "retdec-unpacker",
  "ghidra-headless",
  -- ROP/Exploit tools
  "ropper", "ROPgadget", "one_gadget", "patchelf",
  -- Debugging
  "gdb", "ltrace", "strace", "objcopy",
  -- QR/Barcode
  "zbarimg", "zxing",
  -- Image analysis
  "pngcheck", "pngcrush", "optipng",
  -- Audio analysis
  "sox", "ffmpeg", "ffprobe",
  -- Scripting/Shell
  "bash", "sh", "zsh",
  -- Web tools
  "curl", "wget",
  -- Misc utilities
  "jq", "yq", "xmllint", "nc", "ncat", "dd", "split",
  -- Compilers for solve scripts
  "gcc", "g++", "clang", "make", "cmake",
  -- Node.js
  "node", "npm", "npx",
  -- Other languages
  "ruby", "perl", "php", "go", "rustc", "cargo", "java", "javac",
  -- PWN tools
  "pwn", "cyclic", "shellcraft",
  -- OCR
  "tesseract"]

/-- `SandboxService.is_tool_allowed` (lines 93-96): strip path components,
then test membership in the allowlist. -/
def isToolAllowed (tool : String) : Bool :=
  allowedTools.contains (pathName tool)

/-- Character whitelist for option-shaped arguments
(`c.isalnum() or c in "-_=."`, line 415). -/
def optionCharOk (c : Char) : Bool :=
  c.isAlphanum || c == '-' || c == '_' || c == '=' || c == '.'

/-- Character whitelist for filename-shaped arguments
(`c.isalnum() or c in "-_."`, line 419). -/
def fileCharOk (c : Char) : Bool :=
  c.isAlphanum || c == '-' || c == '_' || c == '.'

/-- The body of the loop of `SandboxService._sanitize_arguments`
(lines 410-419): option arguments are character-filtered, any other
argument is reduced to `Path(arg).name` and character-filtered. -/
def sanitizeOne (arg : String) : String :=
  if headIsChar arg '-' then
    String.mk (arg.data.filter optionCharOk)
  else
    String.mk ((pathName arg).data.filter fileCharOk)

/-- `SandboxService._sanitize_arguments` (lines 406-424): sanitize each
argument and keep the non-empty results, in order. -/
def sanitizeArguments (arguments : List String) : List String :=
  arguments.flatMap (fun arg =>
    let safeArg := sanitizeOne arg
    if safeArg = "" then [] else [safeArg])

/-- Outcome of one docker container invocation, the four branches of the
`try`/`except` in `run_command` (lines 350-404). -/
inductive ContainerOutcome where
  | ok (stdoutBytes : String)
  | containerError (exitStatus : Int) (stdoutB : Option String)
      (stderrB : Option String) (exnText : String)
  | imageNotFound
  | failure (message : String)

/-- The dict returned by `SandboxService.run_command`; a missing `"error"`
key is modelled as `error := false`, a missing `"output_hash"` key as
`outputHash := none`. -/
structure RunResult where
  exitCode : Int
  stdout : String
  stderr : String
  error : Bool
  outputHash : Option String
deriving DecidableEq

/-- `SandboxService.run_command` (lines 327-404). The docker backend is the
parameter `backend`; the second component of the result collects every
container invocation issued (the command lists passed to
`client.containers.run`), so a disallowed tool must produce `[]` there.
`sha256Hex` abstracts `hashlib.sha256(...).hexdigest()` and `sandboxImage`
is `settings.sandbox_image`. -/
def runCommand (backend : List String → ContainerOutcome)
    (sha256Hex : String → String) (sandboxImage : String)
    (tool : String) (arguments : List String) : RunResult × List (List String) :=
  if !isToolAllowed tool then
    ({ exitCode := 1, stdout := "", stderr := "Tool not allowed: " ++ tool,
       error := true, outputHash := none }, [])
  else
    let safeArgs := sanitizeArguments arguments
    let cmd := tool :: safeArgs
    let res : RunResult :=
      match backend cmd with
      | .ok out =>
          { exitCode := 0, stdout := out, stderr := "", error := false,
            outputHash := some ("sha256:" ++ sha256Hex out) }
      | .containerError st so se ex =>
          { exitCode := st, stdout := so.getD "",
            stderr := (match se with
              | some s => if s = "" then ex else s
              | none => ex),
            error := false, outputHash := none }
      | .imageNotFound =>
          { exitCode := 1, stdout := "",
            stderr := "Sandbox image not found: " ++ sandboxImage,
            error := true, outputHash := none }
      | .failure msg =>
          { exitCode := 1, stdout := "", stderr := "Sandbox error: " ++ msg,
            error := true, outputHash := none }
    (res, [cmd])

/-- Shell metacharacters, path separators, quotes and whitespace that a
sanitized argument must never contain (space, apostrophe and backtick are
written via their code points). -/
def shellMetaChars : List Char :=
  [';', '|', '&', '$', '<', '>', '*', '?', '(', ')', '[', ']', '~', '#',
   '!', '"', '\\', '/', lbrace, rbrace,
   Char.ofNat 39, Char.ofNat 96, Char.ofNat 32]

theorem fileCharOk_imp_optionCharOk {c : Char} (h : fileCharOk c = true) :
    optionCharOk c = true := by
  simp only [fileCharOk, optionCharOk, Bool.or_eq_true] at *
  tauto

theorem mem_sanitizeArguments {args : List String} {a : String}
    (h : a ∈ sanitizeArguments args) : ∃ arg ∈ args, a = sanitizeOne arg := by
  simp only [sanitizeArguments, List.mem_flatMap] at h
  obtain ⟨arg, harg, hmem⟩ := h
  refine ⟨arg, harg, ?_⟩
  by_cases he : sanitizeOne arg = ""
  · simp [he] at hmem
  · simp [he] at hmem
    exact hmem

theorem sanitizeOne_chars {arg : String} {c : Char}
    (h : c ∈ (sanitizeOne arg).data) : optionCharOk c = true := by
  unfold sanitizeOne at h
  by_cases hd : headIsChar arg '-' = true
  · simp [hd] at h
    exact h.2
  · simp [hd] at h
    exact fileCharOk_imp_optionCharOk h.2

/-- C1: for every tool whose base name is not in the allowlist,
`run_command` returns the structured result with exit code 1 and the error
marker, and issues no container invocation at all (the spawned-invocation
list is empty), for every backend, hash function, image name and argument
list. -/
theorem c1_disallowed_tool_rejected (backend : List String → ContainerOutcome)
    (sha256Hex : String → String) (sandboxImage : String)
    (tool : String) (arguments : List String)
    (h : isToolAllowed tool = false) :
    runCommand backend sha256Hex sandboxImage tool arguments =
      ({ exitCode := 1, stdout := "", stderr := "Tool not allowed: " ++ tool,
         error := true, outputHash := none }, []) := by
  simp [runCommand, h]

/-- Witness for C1: `/usr/bin/rm` (base name `rm`) is not allowlisted, and
`run_command` on it returns the exit-1 error result with no container
invocation. -/
theorem c1_disallowed_tool_rejected_witness :
    isToolAllowed "/usr/bin/rm" = false ∧
    runCommand (fun _ => ContainerOutcome.failure "boom") (fun _ => "h") "img"
        "/usr/bin/rm" ["-rf", "/"] =
      ({ exitCode := 1, stdout := "", stderr := "Tool not allowed: /usr/bin/rm",
         error := true, outputHash := none }, []) :=
  ⟨by decide,
   c1_disallowed_tool_rejected (fun _ => ContainerOutcome.failure "boom")
     (fun _ => "h") "img" "/usr/bin/rm" ["-rf", "/"] (by decide)⟩

/-- C2: every argument produced by `_sanitize_arguments` consists only of
alphanumerics and the safe punctuation `- _ = .`; consequently it contains
no path separator (`/` or `\`), no absolute-path prefix, no `../`
path-traversal sequence and no shell metacharacter; and a non-option
(filename-shaped) argument is reduced to (a subsequence of) its base name. -/
theorem c2_sanitized_arguments_safe (args : List String) (a : String)
    (h : a ∈ sanitizeArguments args) :
    (∀ c ∈ a.data, optionCharOk c = true) ∧
    '/' ∉ a.data ∧ '\\' ∉ a.data ∧
    headIsChar a '/' = false ∧
    containsSubL ['.', '.', '/'] a.data = false ∧
    (∀ c ∈ shellMetaChars, c ∉ a.data) ∧
    (∀ arg : String, headIsChar arg '-' = false →
      (sanitizeOne arg).data.Sublist (pathName arg).data) := by
  obtain ⟨arg, -, rfl⟩ := mem_sanitizeArguments h
  have hchars : ∀ c ∈ (sanitizeOne arg).data, optionCharOk c = true :=
    fun c hc => sanitizeOne_chars hc
  have hmeta : ∀ c ∈ shellMetaChars, c ∉ (sanitizeOne arg).data := by
    intro c hcm hcmem
    have hok := hchars c hcmem
    have : ∀ c ∈ shellMetaChars, optionCharOk c = false := by decide
    rw [this c hcm] at hok
    exact Bool.false_ne_true hok
  have hslash : '/' ∉ (sanitizeOne arg).data := by
    intro hmem
    have := hchars '/' hmem
    simp [optionCharOk] at this
  refine ⟨hchars, hslash, ?_, ?_, ?_, hmeta, ?_⟩
  · intro hmem
    have := hchars '\\' hmem
    simp [optionCharOk] at this
  · unfold headIsChar
    cases hd : (sanitizeOne arg).data with
    | nil => simp
    | cons h t =>
      simp only [decide_eq_false_iff_not]
      intro heq
      rw [hd, heq] at hslash
      exact hslash (List.mem_cons_self _ _)
  · by_contra hcon
    simp only [Bool.not_eq_false] at hcon
    have : '/' ∈ (sanitizeOne arg).data := by
      clear hslash hchars hmeta
      generalize (sanitizeOne arg).data = l at hcon ⊢
      induction l with
      | nil => simp [containsSubL] at hcon
      | cons x xs ih =>
        simp only [containsSubL, Bool.or_eq_true] at hcon
        rcases hcon with hpre | hrest
        · have := List.isPrefixOf_iff_prefix.mp hpre
          obtain ⟨t, ht⟩ := this
          rw [← ht]
          simp
        · exact List.mem_cons_of_mem _ (ih hrest)
    exact hslash this
  · intro arg2 hd2
    unfold sanitizeOne
    rw [hd2]
    simp only [Bool.false_eq_true, if_false]
    exact List.filter_sublist _

/-- Witness for C2: sanitizing `["../../etc/passwd", "-o=x;rm"]` produces
`"passwd"`, which satisfies all the safety conjuncts. -/
theorem c2_sanitized_arguments_safe_witness :
    "passwd" ∈ sanitizeArguments ["../../etc/passwd", "-o=x;rm"] ∧
    '/' ∉ "passwd".data ∧
    containsSubL ['.', '.', '/'] "passwd".data = false :=
  ⟨by decide,
   (c2_sanitized_arguments_safe ["../../etc/passwd", "-o=x;rm"] "passwd"
     (by decide)).2.1,
   ((c2_sanitized_arguments_safe ["../../etc/passwd", "-o=x;rm"] "passwd"
     (by decide)).2.2.2.2).1⟩

/-! ## Playbook catalog and selection (`apps/api/app/tasks.py` lines 191-491)

Brace characters inside string literals are written with the escapes
`\x7b` / `\x7d`; apostrophes with `\x27`. -/

/-- One playbook step (`{"tool": ..., "arguments": [...]}`). -/
structure Step where
  tool : String
  arguments : List String
deriving DecidableEq

/-- A playbook (`{"name": ..., "description": ..., "steps": [...]}`). -/
structure Playbook where
  name : String
  description : String
  steps : List Step
deriving DecidableEq

/-- The literal placeholder token `"{files}"`. -/
def filesToken : String := "\x7bfiles\x7d"

/-- The `"default"` playbook (tasks.py lines 228-240). -/
def playbookDefault : Playbook :=
  { name := "default",
    description := "General analysis for unknown file types",
    steps := [
      ⟨"file", [filesToken]⟩,
      ⟨"exiftool", [filesToken]⟩,
      ⟨"strings", ["-n", "8", filesToken]⟩,
      ⟨"xxd", ["-l", "512", filesToken]⟩,
      ⟨"sha256sum", [filesToken]⟩,
      ⟨"binwalk", ["-e", filesToken]⟩,
      ⟨"grep", ["-aoE",
        "(flag|FLAG|ctf|CTF|key|secret|password|hint)[\x7b]?[a-zA-Z0-9_-]+[\x7d]?",
        filesToken]⟩] }

/-- The `"pwn"` playbook (lines 243-272). -/
def playbookPwn : Playbook :=
  { name := "pwn",
    description := "Binary exploitation and vulnerability analysis",
    steps := [
      ⟨"file", [filesToken]⟩,
      ⟨"checksec", ["--file", filesToken]⟩,
      ⟨"readelf", ["-h", filesToken]⟩,
      ⟨"readelf", ["-S", filesToken]⟩,
      ⟨"readelf", ["-s", filesToken]⟩,
      ⟨"readelf", ["-r", filesToken]⟩,
      ⟨"nm", ["-C", filesToken]⟩,
      ⟨"objdump", ["-d", "-M", "intel", filesToken]⟩,
      ⟨"objdump", ["-t", filesToken]⟩,
      ⟨"r2", ["-q", "-c", "aaa;afl;pdf@main", filesToken]⟩,
      ⟨"rabin2", ["-I", filesToken]⟩,
      ⟨"rabin2", ["-i", filesToken]⟩,
      ⟨"rabin2", ["-z", filesToken]⟩,
      ⟨"ropper", ["--file", filesToken, "--search", "pop"]⟩,
      ⟨"strings", ["-n", "8", filesToken]⟩,
      ⟨"retdec-decompiler", [filesToken]⟩] }

/-- The `"reversing"` playbook (lines 275-294). -/
def playbookReversing : Playbook :=
  { name := "reversing",
    description := "Reverse engineering and code analysis",
    steps := [
      ⟨"file", [filesToken]⟩,
      ⟨"checksec", ["--file", filesToken]⟩,
      ⟨"readelf", ["-a", filesToken]⟩,
      ⟨"nm", ["-C", filesToken]⟩,
      ⟨"objdump", ["-d", "-M", "intel", filesToken]⟩,
      ⟨"objdump", ["-s", "-j", ".rodata", filesToken]⟩,
      ⟨"r2", ["-q", "-c", "aaa;aflj;agCj", filesToken]⟩,
      ⟨"r2", ["-q", "-c", "aaa;pdf@main", filesToken]⟩,
      ⟨"r2", ["-q", "-c", "izj", filesToken]⟩,
      ⟨"retdec-decompiler", [filesToken]⟩,
      ⟨"strings", ["-n", "6", filesToken]⟩,
      ⟨"strings", ["-e", "l", filesToken]⟩] }

/-- The `"crypto"` playbook (lines 297-319). -/
def playbookCrypto : Playbook :=
  { name := "crypto",
    description := "Cryptography challenge analysis",
    steps := [
      ⟨"file", [filesToken]⟩,
      ⟨"xxd", [filesToken]⟩,
      ⟨"xxd", ["-r", "-p", filesToken]⟩,
      ⟨"hash-identifier", []⟩,
      ⟨"name-that-hash", ["-f", filesToken]⟩,
      ⟨"base64", ["-d", filesToken]⟩,
      ⟨"base32", ["-d", filesToken]⟩,
      ⟨"openssl", ["asn1parse", "-in", filesToken]⟩,
      ⟨"openssl", ["rsa", "-in", filesToken, "-text", "-noout"]⟩,
      ⟨"openssl", ["x509", "-in", filesToken, "-text", "-noout"]⟩,
      ⟨"python3", ["-c",
        "import sys;from collections import Counter;d=open(sys.argv[1],\x27rb\x27).read();print(Counter(d).most_common(30))",
        filesToken]⟩,
      ⟨"strings", [filesToken]⟩,
      ⟨"python3", ["-c",
        "import sys;d=open(sys.argv[1],\x27rb\x27).read()[:100];[print(f\x27Key \x7bk\x7d:\x27,bytes(b^k for b in d)[:50]) for k in range(256)]",
        filesToken]⟩] }

/-- The `"forensics"` playbook (lines 322-347). -/
def playbookForensics : Playbook :=
  { name := "forensics",
    description := "Digital forensics and file carving",
    steps := [
      ⟨"file", [filesToken]⟩,
      ⟨"exiftool", ["-a", "-u", "-g1", filesToken]⟩,
      ⟨"zipinfo", [filesToken]⟩,
      ⟨"unzip", ["-l", filesToken]⟩,
      ⟨"7z", ["l", filesToken]⟩,
      ⟨"binwalk", ["-e", "-M", filesToken]⟩,
      ⟨"binwalk", ["--entropy", filesToken]⟩,
      ⟨"foremost", ["-v", "-i", filesToken]⟩,
      ⟨"strings", ["-n", "6", filesToken]⟩,
      ⟨"strings", ["-e", "l", filesToken]⟩,
      ⟨"strings", ["-e", "b", filesToken]⟩,
      ⟨"xxd", [filesToken]⟩,
      ⟨"sha256sum", [filesToken]⟩,
      ⟨"md5sum", [filesToken]⟩] }

/-- The `"memory_forensics"` playbook (lines 350-367). -/
def playbookMemoryForensics : Playbook :=
  { name := "memory_forensics",
    description := "Memory dump analysis",
    steps := [
      ⟨"file", [filesToken]⟩,
      ⟨"strings", ["-n", "10", filesToken]⟩,
      ⟨"volatility", ["-f", filesToken, "imageinfo"]⟩,
      ⟨"volatility", ["-f", filesToken, "pslist"]⟩,
      ⟨"volatility", ["-f", filesToken, "pstree"]⟩,
      ⟨"volatility", ["-f", filesToken, "cmdline"]⟩,
      ⟨"volatility", ["-f", filesToken, "filescan"]⟩,
      ⟨"volatility", ["-f", filesToken, "netscan"]⟩,
      ⟨"volatility", ["-f", filesToken, "hashdump"]⟩,
      ⟨"volatility", ["-f", filesToken, "hivelist"]⟩,
      ⟨"bulk_extractor", ["-o", "bulk_out", filesToken]⟩] }

/-- The `"stego"` playbook (lines 370-393). -/
def playbookStego : Playbook :=
  { name := "stego",
    description := "Image steganography analysis",
    steps := [
      ⟨"file", [filesToken]⟩,
      ⟨"exiftool", ["-a", "-u", "-g1", filesToken]⟩,
      ⟨"identify", ["-verbose", filesToken]⟩,
      ⟨"zsteg", ["-a", filesToken]⟩,
      ⟨"steghide", ["info", filesToken]⟩,
      ⟨"steghide", ["extract", "-sf", filesToken, "-p", ""]⟩,
      ⟨"stegseek", [filesToken]⟩,
      ⟨"binwalk", ["-e", filesToken]⟩,
      ⟨"strings", ["-n", "8", filesToken]⟩,
      ⟨"python3", ["-c",
        "from PIL import Image;import sys;img=Image.open(sys.argv[1]);d=list(img.getdata());print(\x27LSB:\x27,\x27\x27.join(str(p[0]&1) for p in d[:1000]))",
        filesToken]⟩,
      ⟨"pngcheck", ["-v", filesToken]⟩,
      ⟨"xxd", ["-l", "100", filesToken]⟩] }

/-- The `"audio_stego"` playbook (lines 396-413). -/
def playbookAudioStego : Playbook :=
  { name := "audio_stego",
    description := "Audio steganography and analysis",
    steps := [
      ⟨"file", [filesToken]⟩,
      ⟨"exiftool", [filesToken]⟩,
      ⟨"ffprobe", ["-v", "quiet", "-print_format", "json", "-show_format",
        "-show_streams", filesToken]⟩,
      ⟨"sox", [filesToken, "-n", "stat"]⟩,
      ⟨"sox", [filesToken, "-n", "spectrogram", "-o", "spectrogram.png"]⟩,
      ⟨"ffmpeg", ["-i", filesToken, "-f", "wav", "-"]⟩,
      ⟨"strings", ["-n", "8", filesToken]⟩,
      ⟨"python3", ["-c",
        "import wave;import sys;w=wave.open(sys.argv[1],\x27rb\x27);print(\x27Channels:\x27,w.getnchannels(),\x27Rate:\x27,w.getframerate(),\x27Frames:\x27,w.getnframes())",
        filesToken]⟩,
      ⟨"xxd", ["-l", "256", filesToken]⟩] }

/-- The `"network"` playbook (lines 416-440). -/
def playbookNetwork : Playbook :=
  { name := "network",
    description := "Network traffic and PCAP analysis",
    steps := [
      ⟨"file", [filesToken]⟩,
      ⟨"tshark", ["-r", filesToken, "-q", "-z", "io,stat,0"]⟩,
      ⟨"tshark", ["-r", filesToken, "-q", "-z", "conv,tcp"]⟩,
      ⟨"tshark", ["-r", filesToken, "-q", "-z", "http,tree"]⟩,
      ⟨"tshark", ["-r", filesToken, "-q", "-z", "dns,tree"]⟩,
      ⟨"tshark", ["-r", filesToken, "-Y", "http"]⟩,
      ⟨"tshark", ["-r", filesToken, "-Y", "dns"]⟩,
      ⟨"tshark", ["-r", filesToken, "-Y", "ftp"]⟩,
      ⟨"tshark", ["-r", filesToken, "-Y", "smtp"]⟩,
      ⟨"tshark", ["-r", filesToken, "-Y", "tcp.flags.syn==1"]⟩,
      ⟨"tshark", ["-r", filesToken, "--export-objects", "http,http_objects/"]⟩,
      ⟨"tshark", ["-r", filesToken, "-Y", "ssl.handshake"]⟩,
      ⟨"tshark", ["-r", filesToken, "-q", "-z", "follow,tcp,ascii,0"]⟩,
      ⟨"strings", ["-n", "10", filesToken]⟩] }

/-- The `"web"` playbook (lines 443-465). -/
def playbookWeb : Playbook :=
  { name := "web",
    description := "Web challenge file analysis",
    steps := [
      ⟨"file", [filesToken]⟩,
      ⟨"cat", [filesToken]⟩,
      ⟨"grep", ["-i", "flag", filesToken]⟩,
      ⟨"grep", ["-i", "password", filesToken]⟩,
      ⟨"grep", ["-i", "secret", filesToken]⟩,
      ⟨"grep", ["-oE", "https?://[^\"\x27 >]+", filesToken]⟩,
      ⟨"grep", ["-oE", "eval\\([^)]+\\)", filesToken]⟩,
      ⟨"grep", ["-oE", "atob\\([^)]+\\)", filesToken]⟩,
      ⟨"grep", ["-oE", "btoa\\([^)]+\\)", filesToken]⟩,
      ⟨"grep", ["-oE", "[A-Za-z0-9+/]\x7b20,\x7d=\x7b0,2\x7d", filesToken]⟩,
      ⟨"grep", ["-E", "(eval|exec|system|passthru|shell_exec|base64_decode)",
        filesToken]⟩,
      ⟨"strings", [filesToken]⟩,
      ⟨"xxd", ["-l", "256", filesToken]⟩] }

/-- The `"pdf"` playbook (lines 468-487). -/
def playbookPdf : Playbook :=
  { name := "pdf",
    description := "PDF document analysis",
    steps := [
      ⟨"file", [filesToken]⟩,
      ⟨"pdfinfo", [filesToken]⟩,
      ⟨"pdftotext", [filesToken, "-"]⟩,
      ⟨"pdftotext", ["-layout", filesToken, "-"]⟩,
      ⟨"pdfimages", ["-list", filesToken]⟩,
      ⟨"pdfimages", ["-all", filesToken, "pdf_images"]⟩,
      ⟨"exiftool", ["-a", "-u", filesToken]⟩,
      ⟨"strings", [filesToken]⟩,
      ⟨"grep", ["-a", "JavaScript", filesToken]⟩,
      ⟨"grep", ["-a", "/OpenAction", filesToken]⟩,
      ⟨"grep", ["-a", "stream", filesToken]⟩,
      ⟨"binwalk", ["-e", filesToken]⟩,
      ⟨"xxd", ["-l", "512", filesToken]⟩] }

/-- `_load_playbook` (lines 224-490): look the name up in the catalog,
falling back to the default playbook (`playbooks.get(name, playbooks["default"])`). -/
def loadPlaybook (name : String) : Playbook :=
  match name with
  | "default" => playbookDefault
  | "pwn" => playbookPwn
  | "reversing" => playbookReversing
  | "crypto" => playbookCrypto
  | "forensics" => playbookForensics
  | "memory_forensics" => playbookMemoryForensics
  | "stego" => playbookStego
  | "audio_stego" => playbookAudioStego
  | "network" => playbookNetwork
  | "web" => playbookWeb
  | "pdf" => playbookPdf
  | _ => playbookDefault

/-- `_select_playbook` (lines 191-221): inspect the lower-cased suffixes and
file names and pick the playbook by the fixed `if`/`elif` chain. The Python
code builds a `set` of extensions and then only tests membership, which the
list-membership tests here model exactly. -/
def selectPlaybook (files : List String) : Playbook :=
  let extensions := files.map (fun f => lowerStr (pathSuffix f))
  let filenames := files.map (fun f => lowerStr (pathName f))
  if extensions.contains ".pcap" || extensions.contains ".pcapng" then
    loadPlaybook "network"
  else if extensions.contains ".pdf" then
    loadPlaybook "pdf"
  else if extensions.contains ".elf" || extensions.contains ".exe" ||
      extensions.contains ".bin" || extensions.contains ".so" ||
      extensions.contains ".dll" then
    loadPlaybook "pwn"
  else if extensions.contains ".pyc" || extensions.contains ".class" then
    loadPlaybook "reversing"
  else if extensions.contains ".png" || extensions.contains ".jpg" ||
      extensions.contains ".jpeg" || extensions.contains ".gif" ||
      extensions.contains ".bmp" then
    loadPlaybook "stego"
  else if extensions.contains ".wav" || extensions.contains ".mp3" ||
      extensions.contains ".flac" then
    loadPlaybook "audio_stego"
  else if extensions.contains ".zip" || extensions.contains ".tar" ||
      extensions.contains ".gz" || extensions.contains ".7z" ||
      extensions.contains ".rar" then
    loadPlaybook "forensics"
  else if extensions.contains ".img" || extensions.contains ".raw" ||
      extensions.contains ".dd" || extensions.contains ".mem" ||
      extensions.contains ".vmem" then
    loadPlaybook "memory_forensics"
  else if extensions.contains ".enc" || extensions.contains ".aes" ||
      extensions.contains ".rsa" || extensions.contains ".pem" ||
      extensions.contains ".key" then
    loadPlaybook "crypto"
  else if extensions.contains ".html" || extensions.contains ".php" ||
      extensions.contains ".js" then
    loadPlaybook "web"
  else if filenames.any (fun name => strContains name "flag" ||
      strContains name "cipher" || strContains name "secret" ||
      strContains name "encrypted") then
    loadPlaybook "crypto"
  else
    loadPlaybook "default"

/-- C5: playbook selection is a pure function of the file-name list (the
embedding makes repeated calls literally identical), and a list containing
a file with a network-capture extension (`.pcap`/`.pcapng`, case folded)
always selects the network playbook, regardless of what other files are
present — the network rule is first in the precedence chain. -/
theorem c5_pcap_selects_network (files : List String)
    (h : ∃ f ∈ files, lowerStr (pathSuffix f) = ".pcap" ∨
      lowerStr (pathSuffix f) = ".pcapng") :
    selectPlaybook files = selectPlaybook files ∧
    selectPlaybook files = playbookNetwork ∧
    (selectPlaybook files).name = "network" := by
  obtain ⟨f, hf, hor⟩ := h
  have hcond : ((files.map (fun f => lowerStr (pathSuffix f))).contains ".pcap" ||
      (files.map (fun f => lowerStr (pathSuffix f))).contains ".pcapng") = true := by
    rcases hor with h1 | h1
    · have : ".pcap" ∈ files.map (fun f => lowerStr (pathSuffix f)) :=
        List.mem_map.mpr ⟨f, hf, h1⟩
      simp [this]
    · have : ".pcapng" ∈ files.map (fun f => lowerStr (pathSuffix f)) :=
        List.mem_map.mpr ⟨f, hf, h1⟩
      simp [this]
  refine ⟨rfl, ?_, ?_⟩ <;>
  · simp only [selectPlaybook]
    rw [if_pos hcond]
    rfl

/-- Witness for C5: `["capture.pcap", "notes.txt"]` selects the network
playbook even with an unrelated text file present. -/
theorem c5_pcap_selects_network_witness :
    (∃ f ∈ ["capture.pcap", "notes.txt"], lowerStr (pathSuffix f) = ".pcap" ∨
      lowerStr (pathSuffix f) = ".pcapng") ∧
    selectPlaybook ["capture.pcap", "notes.txt"] = playbookNetwork :=
  ⟨by decide,
   (c5_pcap_selects_network ["capture.pcap", "notes.txt"] (by decide)).2.1⟩

/-! ## Placeholder resolution in `run_playbook`
(`sandbox_service.py` lines 426-468) -/

/-- One entry of the working directory, as seen by `working_dir.iterdir()`
(in iteration order); `isFile` is `f.is_file()`. -/
structure DirEntry where
  name : String
  isFile : Bool
deriving DecidableEq

/-- The argument-resolution loop of `SandboxService.run_playbook`
(lines 440-450): `"{files}"` appends the name of every regular file of the
working directory, any other argument that starts with `{` and ends with
`}` is skipped, anything else is appended unchanged. -/
def resolveStepArgs (workingDir : List DirEntry) (args : List String) : List String :=
  args.foldl (fun processed arg =>
    if arg = filesToken then
      processed ++ (workingDir.filter (fun e => e.isFile)).map (fun e => e.name)
    else if headIsChar arg lbrace && lastIsChar arg rbrace then
      processed
    else
      processed ++ [arg]) []

/-- Spec-side description of resolving one argument (spec §6: "the literal
token `{files}` expands to every regular file in the current working
directory at execution time; any other brace-delimited token is dropped";
other arguments pass through). -/
def specResolveArg (workingDir : List DirEntry) (arg : String) : List String :=
  if arg = filesToken then
    (workingDir.filter (fun e => e.isFile)).map (fun e => e.name)
  else if headIsChar arg lbrace && lastIsChar arg rbrace then
    []
  else
    [arg]

theorem resolveStepArgs_foldl (workingDir : List DirEntry) :
    ∀ (args : List String) (acc : List String),
      args.foldl (fun processed arg =>
        if arg = filesToken then
          processed ++ (workingDir.filter (fun e => e.isFile)).map (fun e => e.name)
        else if headIsChar arg lbrace && lastIsChar arg rbrace then
          processed
        else
          processed ++ [arg]) acc =
      acc ++ args.flatMap (specResolveArg workingDir) := by
  intro args
  induction args with
  | nil => intro acc; simp
  | cons a as ih =>
    intro acc
    rw [List.foldl_cons, List.flatMap_cons, ih]
    unfold specResolveArg
    by_cases h1 : a = filesToken
    · simp [h1]
    · by_cases h2 : (headIsChar a lbrace && lastIsChar a rbrace) = true
      · simp [h1, h2]
      · simp [h1, h2]

/-- C8: resolving a playbook step's argument list against a working
directory treats each argument independently and in order: the literal
`"{files}"` expands to the names of every regular file of the working
directory, any other brace-delimited argument is dropped silently, and
every other argument passes through unchanged. -/
theorem c8_placeholder_resolution (workingDir : List DirEntry) (args : List String) :
    resolveStepArgs workingDir args = args.flatMap (specResolveArg workingDir) := by
  unfold resolveStepArgs
  simpa using resolveStepArgs_foldl workingDir args []

/-! ## Persistence trace of pipeline step 4
(`tasks.py` lines 103-119 and `job_service.py` lines 87-96) -/

/-- Database session operations issued while saving command results. -/
inductive DbOp where
  | addCommand (commandId : String)
  | incCounter
  | commitOp
deriving DecidableEq

/-- `JobService.increment_commands` (job_service.py lines 87-96): bump the
job's `commands_executed` counter and `commit` the session. -/
def incrementCommandsOps : List DbOp :=
  [DbOp.incCounter, DbOp.commitOp]

/-- The database operations issued by step 4 of `_run_analysis`
(tasks.py lines 103-119): for each command result, `db.add(cmd)` followed by
`increment_commands`, then a final `db.commit()` after the loop. -/
def persistCommandsOps (commandIds : List String) : List DbOp :=
  commandIds.flatMap (fun cid => DbOp.addCommand cid :: incrementCommandsOps) ++
    [DbOp.commitOp]

/-- Counterexample to C3: with two playbook steps, a commit is issued
strictly before the end of the persistence phase (a commit occurs inside
`increment_commands` for every step), so the claim "the commit is issued
only after the full step list is processed, never per-step" is false. -/
theorem c3_counterexample :
    DbOp.commitOp ∈ (persistCommandsOps ["cmd_000", "cmd_001"]).dropLast := by
  decide

/-- C3 amended: step 4 issues one commit per persisted step (inside
`JobService.increment_commands`) plus one final whole-batch commit after the
loop — `n + 1` commits for `n` steps, the last issued operation being the
final commit. -/
theorem c3_amended_commit_per_step (commandIds : List String) :
    (persistCommandsOps commandIds).count DbOp.commitOp = commandIds.length + 1 ∧
    (persistCommandsOps commandIds).getLast? = some DbOp.commitOp := by
  constructor
  · unfold persistCommandsOps
    induction commandIds with
    | nil => simp
    | cons c cs ih =>
      rw [List.flatMap_cons, List.append_assoc, List.count_append, ih]
      simp [incrementCommandsOps, List.count_cons]
      omega
  · unfold persistCommandsOps
    rw [List.getLast?_concat]

/-! ## Job lifecycle (`models.py`, `routers/jobs.py`, `job_service.py`) -/

/-- `JobStatus` (models.py lines 11-16). -/
inductive JobStatus where
  | pending
  | queued
  | running
  | completed
  | failed
deriving DecidableEq

/-- The fields of a `Job` row that the pipeline mutates. Timeline entries
are `(timestamp, event)` pairs with abstract `Nat` timestamps. -/
structure Job where
  status : JobStatus
  startedAt : Option Nat
  completedAt : Option Nat
  errorMessage : Option String
  timeline : List (Nat × String)
  commandsExecuted : Nat
deriving DecidableEq

/-- Outcome of the `run_job` route: 404, 400, or 202-accepted. -/
inductive RunJobOutcome where
  | notFound
  | invalidStatus
  | accepted
deriving DecidableEq

/-- `run_job` (routers/jobs.py lines 147-179): look the job up; reject when
its status is not in `[PENDING, FAILED]`; otherwise set it to `QUEUED`,
append the timeline event, commit, and dispatch the Celery task. The
result is `(outcome, stored job state, whether the task was dispatched)`. -/
def runJob (jobOpt : Option Job) (now : Nat) : RunJobOutcome × Option Job × Bool :=
  match jobOpt with
  | none => (.notFound, none, false)
  | some job =>
    if ¬(job.status = JobStatus.pending ∨ job.status = JobStatus.failed) then
      (.invalidStatus, some job, false)
    else
      let queuedJob := { job with
        status := JobStatus.queued,
        timeline := job.timeline ++ [(now, "Job queued for execution")] }
      (.accepted, some queuedJob, true)

/-- C6: the run action is accepted iff the job's status is `pending` or
`failed`; a run request in any other status is rejected with an error and
leaves the job unchanged and undispatched, while a run request on a
pending or failed job is accepted, stores status `queued`, and dispatches
the job. -/
theorem c6_run_action_validity (job : Job) (now : Nat) :
    ((runJob (some job) now).1 = RunJobOutcome.accepted ↔
      (job.status = JobStatus.pending ∨ job.status = JobStatus.failed)) ∧
    (¬(job.status = JobStatus.pending ∨ job.status = JobStatus.failed) →
      runJob (some job) now = (RunJobOutcome.invalidStatus, some job, false)) ∧
    ((job.status = JobStatus.pending ∨ job.status = JobStatus.failed) →
      (runJob (some job) now).1 = RunJobOutcome.accepted ∧
      ((runJob (some job) now).2.1.map Job.status) = some JobStatus.queued ∧
      (runJob (some job) now).2.2 = true) := by
  by_cases h : job.status = JobStatus.pending ∨ job.status = JobStatus.failed <;>
    simp [runJob, h]

/-- Demonstration jobs for the C6 witness. -/
def c6RunningJob : Job :=
  { status := JobStatus.running, startedAt := some 1, completedAt := none,
    errorMessage := none, timeline := [], commandsExecuted := 0 }

/-- A failed job used in the C6 witness. -/
def c6FailedJob : Job :=
  { status := JobStatus.failed, startedAt := some 1, completedAt := some 2,
    errorMessage := some "boom", timeline := [], commandsExecuted := 3 }

/-- Witness for C6: a `running` job is rejected unchanged and undispatched;
a `failed` job is accepted, re-queued and dispatched. -/
theorem c6_run_action_validity_witness :
    runJob (some c6RunningJob) 5 =
      (RunJobOutcome.invalidStatus, some c6RunningJob, false) ∧
    ((runJob (some c6FailedJob) 5).1 = RunJobOutcome.accepted ∧
      ((runJob (some c6FailedJob) 5).2.1.map Job.status) = some JobStatus.queued ∧
      (runJob (some c6FailedJob) 5).2.2 = true) :=
  ⟨(c6_run_action_validity c6RunningJob 5).2.1 (by decide),
   (c6_run_action_validity c6FailedJob 5).2.2 (by decide)⟩

/-- The body of `JobService.update_status` for a found job (job_service.py
lines 54-71): set the status; set `started_at` only when transitioning to
RUNNING with `started_at` unset (Python `not job.started_at`); set
`completed_at` on COMPLETED/FAILED; store a truthy error message; append a
truthy timeline event. -/
def applyStatusUpdate (job : Job) (status : JobStatus) (event : Option String)
    (errorMessage : Option String) (now : Nat) : Job :=
  let j1 := { job with status := status }
  let j2 := if status = JobStatus.running ∧ j1.startedAt = none then
      { j1 with startedAt := some now }
    else j1
  let j3 := if status = JobStatus.completed ∨ status = JobStatus.failed then
      { j2 with completedAt := some now }
    else j2
  let j4 := match errorMessage with
    | some m => if m = "" then j3 else { j3 with errorMessage := some m }
    | none => j3
  match event with
  | some e => if e = "" then j4 else { j4 with timeline := j4.timeline ++ [(now, e)] }
  | none => j4

/-- `JobService.update_status` (lines 38-71): look the job up; a missing
job is a no-op, otherwise apply the update and commit. -/
def updateStatus (jobOpt : Option Job) (status : JobStatus) (event : Option String)
    (errorMessage : Option String) (now : Nat) : Option Job :=
  jobOpt.map (fun job => applyStatusUpdate job status event errorMessage now)

/-- C10: `update_status` never overwrites an existing `started_at`: when it
is already set it survives every update (including a second transition to
`running`); when unset it stays unset unless the update transitions to
`running`, in which case it is assigned. -/
theorem c10_started_at_never_overwritten (job : Job) (status : JobStatus)
    (event errorMessage : Option String) (now t : Nat) :
    (job.startedAt = some t →
      (applyStatusUpdate job status event errorMessage now).startedAt = some t) ∧
    (job.startedAt = none → status ≠ JobStatus.running →
      (applyStatusUpdate job status event errorMessage now).startedAt = none) ∧
    (job.startedAt = none → status = JobStatus.running →
      (applyStatusUpdate job status event errorMessage now).startedAt = some now) := by
  refine ⟨fun h1 => ?_, fun h1 h2 => ?_, fun h1 h2 => ?_⟩ <;>
    cases event <;> cases errorMessage <;>
      simp_all [applyStatusUpdate, apply_ite Job.startedAt]

/-- Job used in the C10 witness: `started_at` already set. -/
def c10StartedJob : Job :=
  { status := JobStatus.failed, startedAt := some 1, completedAt := some 2,
    errorMessage := some "boom", timeline := [], commandsExecuted := 2 }

/-- Witness for C10: re-running a retried job (a second transition to
`running`) leaves its original `started_at` intact. -/
theorem c10_started_at_never_overwritten_witness :
    c10StartedJob.startedAt = some 1 ∧
    (applyStatusUpdate c10StartedJob JobStatus.running (some "Analysis started")
      none 9).startedAt = some 1 :=
  ⟨by decide,
   (c10_started_at_never_overwritten c10StartedJob JobStatus.running
     (some "Analysis started") none 9 1).1 (by decide)⟩

/-! ## ProgressBroadcaster (`apps/api/app/websocket.py`)

Subscribers (websockets) are identified by `Nat`. The Python
`job_connections: Dict[str, Set[WebSocket]]` is modelled as a total
function `String → List Nat` (a missing key is the empty list, matching
`self.job_connections.get(job_id, set())`; `del` of an emptied key is the
empty list); sets are duplicate-free lists. Whether a `send_text` raises is
modelled by the per-subscriber oracle `sendOk`. -/

/-- The `ConnectionManager` state (websocket.py lines 11-16). -/
structure ConnectionManager where
  jobConnections : String → List Nat
  globalConnections : List Nat

/-- `disconnect_job` (lines 40-47): discard the websocket from the job's
set (deleting the key when emptied, which here is just the empty list). -/
def disconnectJob (m : ConnectionManager) (jobId : String) (ws : Nat) : ConnectionManager :=
  { m with jobConnections := fun j =>
      if j = jobId then (m.jobConnections j).filter (fun w => w != ws)
      else m.jobConnections j }

/-- `disconnect_global` (lines 34-38): discard the websocket from the
global set. -/
def disconnectGlobal (m : ConnectionManager) (ws : Nat) : ConnectionManager :=
  { m with globalConnections := m.globalConnections.filter (fun w => w != ws) }

/-- `broadcast_job_update` (lines 49-82): snapshot the job's subscriber set
and the global set, attempt a send to each of them (job set first), record
every failing subscriber in `disconnected` (job entries first, then global
entries, in send order), then disconnect each recorded subscriber from its
set. Returns the new state and the list of attempted sends. -/
def broadcastJobUpdate (m : ConnectionManager) (jobId : String)
    (sendOk : Nat → Bool) : ConnectionManager × List Nat :=
  let jobClients := m.jobConnections jobId
  let globalClients := m.globalConnections
  let attempted := jobClients ++ globalClients
  let disconnectedJob := jobClients.filter (fun w => !sendOk w)
  let disconnectedGlobal := globalClients.filter (fun w => !sendOk w)
  let m1 := disconnectedJob.foldl (fun acc w => disconnectJob acc jobId w) m
  let m2 := disconnectedGlobal.foldl (fun acc w => disconnectGlobal acc w) m1
  (m2, attempted)

/-- `broadcast_job_log` (lines 100-118): snapshot only the job's subscriber
set and attempt a send to each member; a failing send is swallowed
(`except Exception: pass`) — no subscriber is ever removed and the global
set is never contacted. -/
def broadcastJobLog (m : ConnectionManager) (jobId : String)
    (sendOk : Nat → Bool) : ConnectionManager × List Nat :=
  let jobClients := m.jobConnections jobId
  (m, jobClients)

theorem disconnectJob_jobConnections (m : ConnectionManager) (jobId : String)
    (ws : Nat) :
    (disconnectJob m jobId ws).jobConnections jobId =
      (m.jobConnections jobId).filter (fun w => w != ws) := by
  simp [disconnectJob]

theorem foldl_disconnectJob_mem (jobId : String) (ws : List Nat) :
    ∀ (m : ConnectionManager) (x : Nat),
      x ∈ (ws.foldl (fun acc w => disconnectJob acc jobId w) m).jobConnections jobId ↔
      (x ∈ m.jobConnections jobId ∧ x ∉ ws) := by
  induction ws with
  | nil => intro m x; simp
  | cons w ws ih =>
    intro m x
    rw [List.foldl_cons, ih, disconnectJob_jobConnections]
    simp only [List.mem_filter, bne_iff_ne, ne_eq, decide_eq_true_eq, List.mem_cons]
    tauto

theorem foldl_disconnectJob_global (jobId : String) (ws : List Nat) :
    ∀ m : ConnectionManager,
      (ws.foldl (fun acc w => disconnectJob acc jobId w) m).globalConnections =
        m.globalConnections := by
  induction ws with
  | nil => intro m; rfl
  | cons w ws ih => intro m; rw [List.foldl_cons, ih]; rfl

theorem foldl_disconnectGlobal_mem (ws : List Nat) :
    ∀ (m : ConnectionManager) (x : Nat),
      x ∈ (ws.foldl (fun acc w => disconnectGlobal acc w) m).globalConnections ↔
      (x ∈ m.globalConnections ∧ x ∉ ws) := by
  induction ws with
  | nil => intro m x; simp
  | cons w ws ih =>
    intro m x
    rw [List.foldl_cons, ih]
    simp only [disconnectGlobal, List.mem_filter, bne_iff_ne, ne_eq,
      decide_eq_true_eq, List.mem_cons]
    tauto

theorem foldl_disconnectGlobal_job (ws : List Nat) :
    ∀ m : ConnectionManager,
      (ws.foldl (fun acc w => disconnectGlobal acc w) m).jobConnections =
        m.jobConnections := by
  induction ws with
  | nil => intro m; rfl
  | cons w ws ih => intro m; rw [List.foldl_cons, ih]; rfl

/-- A concrete broadcaster state: job `"1"` has subscriber `0`, and `1` is
a global subscriber. -/
def c4Manager : ConnectionManager :=
  { jobConnections := fun j => if j = "1" then [0] else [],
    globalConnections := [1] }

/-- Send oracle under which subscriber `0`'s sends fail. -/
def c4SendOk : Nat → Bool := fun w => w != 0

/-- Counterexample to C4 as stated: for the log-line event kind the
broadcaster contacts only the job's per-job subscribers — the global
subscriber `1` receives no send attempt — and the failing subscriber `0`
is not removed from the per-job set. The claim's "every publish of either
event kind reaches global subscribers and removes failing subscribers" is
therefore false for `broadcast_job_log`. -/
theorem c4_counterexample :
    1 ∉ (broadcastJobLog c4Manager "1" c4SendOk).2 ∧
    c4SendOk 0 = false ∧
    0 ∈ (broadcastJobLog c4Manager "1" c4SendOk).1.jobConnections "1" := by
  decide

/-- C4 amended: for the status-update event kind, a publish attempts a send
to every per-job and every global subscriber, removes exactly the failing
subscribers from their sets, and still delivers to every healthy
subscriber; for the log-line event kind, only the job's per-job subscribers
are attempted and the state is left unchanged (failures are swallowed,
nothing is removed, global subscribers are not contacted). -/
theorem c4_amended_broadcast (m : ConnectionManager) (jobId : String)
    (sendOk : Nat → Bool) (w : Nat) :
    ((broadcastJobUpdate m jobId sendOk).2 =
      m.jobConnections jobId ++ m.globalConnections) ∧
    (w ∈ m.jobConnections jobId → sendOk w = false →
      w ∉ (broadcastJobUpdate m jobId sendOk).1.jobConnections jobId) ∧
    (w ∈ m.globalConnections → sendOk w = false →
      w ∉ (broadcastJobUpdate m jobId sendOk).1.globalConnections) ∧
    (w ∈ m.jobConnections jobId → sendOk w = true →
      w ∈ (broadcastJobUpdate m jobId sendOk).2.filter sendOk ∧
      w ∈ (broadcastJobUpdate m jobId sendOk).1.jobConnections jobId) ∧
    (w ∈ m.globalConnections → sendOk w = true →
      w ∈ (broadcastJobUpdate m jobId sendOk).2.filter sendOk ∧
      w ∈ (broadcastJobUpdate m jobId sendOk).1.globalConnections) ∧
    ((broadcastJobLog m jobId sendOk).2 = m.jobConnections jobId) ∧
    ((broadcastJobLog m jobId sendOk).1 = m) := by
  have hjob : (broadcastJobUpdate m jobId sendOk).1.jobConnections =
      (((m.jobConnections jobId).filter (fun w => !sendOk w)).foldl
        (fun acc w => disconnectJob acc jobId w) m).jobConnections := by
    simp only [broadcastJobUpdate]
    rw [foldl_disconnectGlobal_job]
  have hglob : (broadcastJobUpdate m jobId sendOk).1.globalConnections =
      ((m.globalConnections.filter (fun w => !sendOk w)).foldl
        (fun acc w => disconnectGlobal acc w)
        (((m.jobConnections jobId).filter (fun w => !sendOk w)).foldl
          (fun acc w => disconnectJob acc jobId w) m)).globalConnections := by
    simp only [broadcastJobUpdate]
  refine ⟨rfl, ?_, ?_, ?_, ?_, rfl, rfl⟩
  · intro hmem hfail
    rw [hjob, foldl_disconnectJob_mem]
    intro hcon
    exact hcon.2 (List.mem_filter.mpr ⟨hmem, by simp [hfail]⟩)
  · intro hmem hfail
    rw [hglob, foldl_disconnectGlobal_mem]
    intro hcon
    exact hcon.2 (List.mem_filter.mpr ⟨hmem, by simp [hfail]⟩)
  · intro hmem hok
    constructor
    · exact List.mem_filter.mpr ⟨List.mem_append_left _ hmem, hok⟩
    · rw [hjob, foldl_disconnectJob_mem]
      refine ⟨hmem, fun hcon => ?_⟩
      have := (List.mem_filter.mp hcon).2
      simp [hok] at this
  · intro hmem hok
    constructor
    · exact List.mem_filter.mpr ⟨List.mem_append_right _ hmem, hok⟩
    · rw [hglob, foldl_disconnectGlobal_mem, foldl_disconnectJob_global]
      refine ⟨hmem, fun hcon => ?_⟩
      have := (List.mem_filter.mp hcon).2
      simp [hok] at this

/-- Witness for C4 (amended): on a status-update publish from `c4Manager`,
the failing job subscriber `0` is removed and the healthy global subscriber
`1` still receives the event. -/
theorem c4_amended_broadcast_witness :
    0 ∉ (broadcastJobUpdate c4Manager "1" c4SendOk).1.jobConnections "1" ∧
    1 ∈ (broadcastJobUpdate c4Manager "1" c4SendOk).2.filter c4SendOk :=
  ⟨(c4_amended_broadcast c4Manager "1" c4SendOk 0).2.1 (by decide) (by decide),
   ((c4_amended_broadcast c4Manager "1" c4SendOk 1).2.2.2.2.1
     (by decide) (by decide)).1⟩

/-! ## EvidenceService (`apps/api/app/services/evidence_service.py`)

Confidence scores are exact multiples of 0.1 in the source; they are
modelled as integers scaled by 10 (base 0.5 ↦ 5, bonuses +0.2 ↦ +2,
penalties −0.2/−0.3 ↦ −2/−3, clamp to [0.1, 1.0] ↦ clamp to [1, 10]),
which is order-exact. Regex matchers are modelled as functions
`String → List String` returning `findall`'s match list; the fixed default
patterns `TAG\{[^}]+\}` get a direct matcher. -/

/-- One element of `command_results` as consumed by `extract_flags`
(`result.get("stdout"/"command_id"/"tool")`). -/
structure CmdResult where
  commandId : String
  tool : String
  stdout : String
deriving DecidableEq

/-- One flag candidate dict produced by `extract_flags` (lines 62-68). -/
structure Candidate where
  value : String
  confidence : Int
  source : String
  evidenceId : String
  context : String
deriving DecidableEq

/-- Tools treated as producing clean decoded text (line 85). -/
def cleanTools : List String := ["strings", "base64", "pdftotext"]

/-- `'A' <= c <= 'Z'` (the regex class `[A-Z]`). -/
def isUpperAZ (c : Char) : Bool := 'A' ≤ c && c ≤ 'Z'

/-- The regex class `[a-zA-Z0-9_-]` (ASCII, exactly what the regex means). -/
def isBodyChar (c : Char) : Bool := c.isAlphanum || c == '_' || c == '-'

/-- `re.match(r'^[A-Z]+\{[a-zA-Z0-9_-]+\}$', s)` (line 89): one or more
uppercase letters, a brace-delimited non-empty run of body characters, and
nothing after the closing brace. -/
def flagLikeShape (s : String) : Bool :=
  let cs := s.data
  let ups := cs.takeWhile isUpperAZ
  let rest := cs.drop ups.length
  !ups.isEmpty &&
    (match rest with
     | b :: rest2 =>
         b = lbrace &&
           (let inner := rest2.takeWhile isBodyChar
            !inner.isEmpty && rest2.drop inner.length == [rbrace])
     | [] => false)

/-- `re.search(r'\{([^}]+)\}', s)` (line 93): the leftmost occurrence of a
brace-delimited non-empty run of non-brace characters, returning the inner
group. -/
def innerBraceContent : List Char → Option (List Char)
  | [] => none
  | c :: rest =>
    if c = lbrace then
      let inner := rest.takeWhile (fun x => x != rbrace)
      if inner.isEmpty then innerBraceContent rest
      else
        match rest.drop inner.length with
        | r :: _ => if r = rbrace then some inner else innerBraceContent rest
        | [] => innerBraceContent rest
    else innerBraceContent rest

/-- `sum(1 for c in line if c.isalnum() or c.isspace())` (line 106). -/
def readableCount (line : List Char) : Nat :=
  line.countP (fun c => c.isAlphanum || c.isWhitespace)

/-- `readable_ratio < 0.5` (lines 106-107), cleared of the division:
`count / max(len, 1) < 1/2  ↔  2 * count < max(len, 1)`. -/
def lineIsNoisy (line : String) : Bool :=
  2 * readableCount line.data < max line.data.length 1

/-- The output-independent part of `_calculate_confidence` (lines 82-99):
base 0.5, +0.2 for clean-text tools, +0.2 for a flag-like shape, −0.2 for
an inner group shorter than 5, −0.3 for one longer than 100. -/
def calcConfidenceBase (matchVal tool : String) : Int :=
  let c0 : Int := 5
  let c1 := if tool ∈ cleanTools then c0 + 2 else c0
  let c2 := if flagLikeShape matchVal then c1 + 2 else c1
  match innerBraceContent matchVal.data with
  | some inner =>
      if inner.length < 5 then c2 - 2
      else if inner.length > 100 then c2 - 3
      else c2
  | none => c2

/-- The first line of `output` (split on newlines, lines 102-104) that
contains `matchVal` — the loop runs `break` after the first hit. -/
def firstContainingLine (output matchVal : String) : Option String :=
  ((splitOnChar '\n' output.data).map String.mk).find?
    (fun line => strContains line matchVal)

/-- `_calculate_confidence` (lines 75-111): the base score, −0.2 when the
first line containing the match is mostly non-printable, clamped to
[0.1, 1.0] by `max(0.1, min(1.0, confidence))`. -/
def calcConfidence (matchVal tool output : String) : Int :=
  let base := calcConfidenceBase matchVal tool
  let c :=
    match firstContainingLine output matchVal with
    | some line => if lineIsNoisy line then base - 2 else base
    | none => base
  max 1 (min 10 c)

/-- `'\n'.join(lines)`. -/
def joinWithNl : List String → String
  | [] => ""
  | [x] => x
  | x :: y :: xs => x ++ "\n" ++ joinWithNl (y :: xs)

/-- `_extract_context` (lines 113-129): two lines of context either side of
the first line containing the match, joined and truncated to 500
characters (with a `"..."` marker); empty when no line matches. -/
def extractContext (output matchVal : String) : String :=
  let lines := (splitOnChar '\n' output.data).map String.mk
  match lines.findIdx? (fun line => strContains line matchVal) with
  | some i =>
    let start := i - 2
    let stop := min lines.length (i + 3)
    let ctx := joinWithNl ((lines.drop start).take (stop - start))
    if ctx.data.length > 500 then String.mk (ctx.data.take 500) ++ "..." else ctx
  | none => ""

/-- The candidate dict appended for a fresh match (lines 56-68). -/
def mkCandidate (matchVal : String) (r : CmdResult) : Candidate :=
  { value := matchVal,
    confidence := calcConfidence matchVal r.tool r.stdout,
    source := r.tool ++ " output",
    evidenceId := r.commandId,
    context := extractContext r.stdout matchVal }

/-- `re.findall` for the fixed pattern shape `TAG\{[^}]+\}`: non-overlapping
left-to-right matches, each being the tag, an opening brace, a non-empty
greedy run of non-brace characters, and the closing brace. `fuel` bounds
the recursion (each step consumes at least one character). -/
def findTagMatchesAux (tag : List Char) : Nat → List Char → List (List Char)
  | 0, _ => []
  | _, [] => []
  | fuel + 1, c :: rest =>
    if tag.isPrefixOf (c :: rest) then
      match (c :: rest).drop tag.length with
      | b :: rest2 =>
        if b = lbrace then
          let inner := rest2.takeWhile (fun x => x != rbrace)
          match rest2.drop inner.length with
          | r :: restAfter =>
            if r = rbrace && !inner.isEmpty then
              (tag ++ lbrace :: (inner ++ [rbrace])) ::
                findTagMatchesAux tag fuel restAfter
            else findTagMatchesAux tag fuel rest
          | [] => findTagMatchesAux tag fuel rest
        else findTagMatchesAux tag fuel rest
      | [] => findTagMatchesAux tag fuel rest
    else findTagMatchesAux tag fuel rest

/-- `re.findall(tag + r"\{[^}]+\}", s)` as a matcher function. -/
def findTagMatches (tag : String) (s : String) : List String :=
  (findTagMatchesAux tag.data (s.data.length + 1) s.data).map String.mk

/-- The compiled `default_flag_patterns` (lines 14-19 and 39-40):
`CTF\{[^}]+\}`, `FLAG\{[^}]+\}`, `flag\{[^}]+\}`, `ctf\{[^}]+\}`. -/
def defaultFlagPatterns : List (String → List String) :=
  [findTagMatches "CTF", findTagMatches "FLAG",
   findTagMatches "flag", findTagMatches "ctf"]

/-- The `(match, result)` pairs in the order the triple loop of
`extract_flags` (lines 42-50) visits them: results outermost, then
patterns, then `findall` matches. -/
def scanPairs (patterns : List (String → List String))
    (commandResults : List CmdResult) : List (String × CmdResult) :=
  commandResults.flatMap (fun r =>
    patterns.flatMap (fun p => (p r.stdout).map (fun m => (m, r))))

/-- The dedup loop of `extract_flags` (lines 50-68): skip a match already
in `seen_values`, otherwise record it and append a candidate built from
this (first) occurrence. -/
def collectCandidates (seen : List String) :
    List (String × CmdResult) → List Candidate
  | [] => []
  | (m, r) :: rest =>
    if m ∈ seen then collectCandidates seen rest
    else mkCandidate m r :: collectCandidates (m :: seen) rest

/-- Insert a candidate into a descending-by-confidence list, before the
first element of no higher confidence (so earlier elements stay first among
ties, matching a stable sort). -/
def insertDesc (c : Candidate) : List Candidate → List Candidate
  | [] => [c]
  | x :: xs => if x.confidence ≤ c.confidence then c :: x :: xs else x :: insertDesc c xs

/-- `candidates.sort(key=lambda x: x["confidence"], reverse=True)`
(line 71): Python's stable descending sort, modelled by stable insertion
sort. -/
def sortByConfDesc : List Candidate → List Candidate
  | [] => []
  | c :: cs => insertDesc c (sortByConfDesc cs)

theorem perm_insertDesc (c : Candidate) (l : List Candidate) :
    (insertDesc c l).Perm (c :: l) := by
  induction l with
  | nil => exact List.Perm.refl _
  | cons x xs ih =>
    unfold insertDesc
    by_cases h : x.confidence ≤ c.confidence
    · simp [h]
    · simp only [h, if_false]
      exact (ih.cons x).trans (List.Perm.swap c x xs)

theorem perm_sortByConfDesc (l : List Candidate) :
    (sortByConfDesc l).Perm l := by
  induction l with
  | nil => exact List.Perm.refl _
  | cons c cs ih =>
    exact (perm_insertDesc c (sortByConfDesc cs)).trans (ih.cons c)

/-- `EvidenceService.extract_flags` (lines 21-73) with the compiled pattern
list abstract: scan, dedup, then sort by descending confidence. -/
def extractFlags (patterns : List (String → List String))
    (commandResults : List CmdResult) : List Candidate :=
  sortByConfDesc (collectCandidates [] (scanPairs patterns commandResults))

theorem mem_collectCandidates :
    ∀ (pairs : List (String × CmdResult)) (seen : List String) (c : Candidate),
      c ∈ collectCandidates seen pairs →
      c.value ∉ seen ∧
      ∃ r, pairs.find? (fun p => p.1 == c.value) = some (c.value, r) ∧
        c = mkCandidate c.value r := by
  intro pairs
  induction pairs with
  | nil => intro seen c h; simp [collectCandidates] at h
  | cons pr rest ih =>
    obtain ⟨m, r⟩ := pr
    intro seen c h
    unfold collectCandidates at h
    by_cases hm : m ∈ seen
    · rw [if_pos hm] at h
      obtain ⟨hns, r', hfind, hcc⟩ := ih seen c h
      have hne : ((m, r).1 == c.value) = false := by
        simp only [beq_eq_false_iff_ne]
        intro he
        exact hns (he ▸ hm)
      exact ⟨hns, r',
        by rw [List.find?_cons, hne]; exact hfind, hcc⟩
    · rw [if_neg hm] at h
      rcases List.mem_cons.mp h with hc | hc
      · subst hc
        refine ⟨hm, r, ?_, rfl⟩
        have hpos : ((m, r).1 == (mkCandidate m r).value) = true := by
          simp [mkCandidate]
        rw [List.find?_cons, hpos]
        rfl
      · obtain ⟨hns, r', hfind, hcc⟩ := ih (m :: seen) c hc
        have hvm : c.value ≠ m := by
          intro he
          exact hns (by rw [he]; exact List.mem_cons_self _ _)
        have hne : ((m, r).1 == c.value) = false := by
          simp only [beq_eq_false_iff_ne]
          exact fun he => hvm he.symm
        exact ⟨fun hs => hns (List.mem_cons_of_mem _ hs), r',
          by rw [List.find?_cons, hne]; exact hfind, hcc⟩

theorem pairwise_collectCandidates :
    ∀ (pairs : List (String × CmdResult)) (seen : List String),
      (collectCandidates seen pairs).Pairwise (fun a b => a.value ≠ b.value) := by
  intro pairs
  induction pairs with
  | nil => intro seen; simp [collectCandidates]
  | cons pr rest ih =>
    obtain ⟨m, r⟩ := pr
    intro seen
    unfold collectCandidates
    by_cases hm : m ∈ seen
    · rw [if_pos hm]; exact ih seen
    · rw [if_neg hm]
      refine List.Pairwise.cons ?_ (ih (m :: seen))
      intro c hc he
      have hns := (mem_collectCandidates rest (m :: seen) c hc).1
      apply hns
      rw [← he]
      exact List.mem_cons_self _ _

theorem covered_collectCandidates :
    ∀ (pairs : List (String × CmdResult)) (seen : List String)
      (q : String × CmdResult), q ∈ pairs →
      q.1 ∈ seen ∨ ∃ c ∈ collectCandidates seen pairs, c.value = q.1 := by
  intro pairs
  induction pairs with
  | nil => intro seen q h; simp at h
  | cons pr rest ih =>
    obtain ⟨m, r⟩ := pr
    intro seen q hq
    unfold collectCandidates
    by_cases hm : m ∈ seen
    · rw [if_pos hm]
      rcases List.mem_cons.mp hq with rfl | hq'
      · exact Or.inl hm
      · exact ih seen q hq'
    · rw [if_neg hm]
      rcases List.mem_cons.mp hq with rfl | hq'
      · exact Or.inr ⟨mkCandidate m r, List.mem_cons_self _ _, rfl⟩
      · rcases ih (m :: seen) q hq' with hin | ⟨c, hc, hv⟩
        · rcases List.mem_cons.mp hin with he | hs
          · exact Or.inr ⟨mkCandidate m r, List.mem_cons_self _ _, he.symm⟩
          · exact Or.inl hs
        · exact Or.inr ⟨c, List.mem_cons_of_mem _ hc, hv⟩

theorem countP_le_one_of_pairwise (v : String) :
    ∀ l : List Candidate, l.Pairwise (fun a b => a.value ≠ b.value) →
      l.countP (fun c => c.value == v) ≤ 1 := by
  intro l
  induction l with
  | nil => intro _; simp
  | cons a l ih =>
    intro hp
    rw [List.countP_cons]
    by_cases ha : (a.value == v) = true
    · have hav : a.value = v := by rwa [beq_iff_eq] at ha
      have hzero : l.countP (fun c => c.value == v) = 0 := by
        rw [List.countP_eq_zero]
        intro c hc
        have hne := (List.pairwise_cons.mp hp).1 c hc
        simp only [beq_iff_eq]
        intro he
        exact hne (hav.trans he.symm)
      rw [hzero, ha]
      simp
    · have hfa : (a.value == v) = false := by
        rwa [Bool.not_eq_true] at ha
      rw [hfa]
      simpa using ih hp.of_cons

/-- C7: `extract_flags` deduplicates by matched value — the returned
candidate list has pairwise-distinct values (hence at most one candidate
per distinct value), every returned candidate is built from the first
occurrence of its value in scan order (results × patterns × findall
matches), and every scanned match value is represented by exactly one
candidate. Holds for every compiled pattern list, so in particular for a
custom pattern plus the defaults. -/
theorem c7_extract_dedup_by_value (patterns : List (String → List String))
    (commandResults : List CmdResult) :
    ((extractFlags patterns commandResults).Pairwise
      (fun a b => a.value ≠ b.value)) ∧
    (∀ v : String,
      (extractFlags patterns commandResults).countP (fun c => c.value == v) ≤ 1) ∧
    (∀ c ∈ extractFlags patterns commandResults,
      ∃ r, (scanPairs patterns commandResults).find? (fun p => p.1 == c.value) =
          some (c.value, r) ∧ c = mkCandidate c.value r) ∧
    (∀ q ∈ scanPairs patterns commandResults,
      ∃ c ∈ extractFlags patterns commandResults, c.value = q.1) := by
  have hperm := perm_sortByConfDesc
    (collectCandidates [] (scanPairs patterns commandResults))
  have hpw : (extractFlags patterns commandResults).Pairwise
      (fun a b => a.value ≠ b.value) := by
    unfold extractFlags
    exact (hperm.pairwise_iff (fun h => Ne.symm h)).mpr
      (pairwise_collectCandidates _ _)
  refine ⟨hpw, fun v => countP_le_one_of_pairwise v _ hpw, ?_, ?_⟩
  · intro c hc
    unfold extractFlags at hc
    have hc' := hperm.mem_iff.mp hc
    obtain ⟨-, r, hf, hcc⟩ := mem_collectCandidates _ _ _ hc'
    exact ⟨r, hf, hcc⟩
  · intro q hq
    rcases covered_collectCandidates _ [] q hq with hin | ⟨c, hc, hv⟩
    · simp at hin
    · refine ⟨c, ?_, hv⟩
      unfold extractFlags
      exact hperm.mem_iff.mpr hc

/-- Command results containing the same flag value twice, for the C7
witness. -/
def c7Results : List CmdResult :=
  [⟨"cmd_000", "strings", "Some text\nCTF\x7bdup_flag\x7d\nMore text"⟩,
   ⟨"cmd_001", "xxd", "CTF\x7bdup_flag\x7d"⟩]

/-- A single-pattern list for the C7 witness. -/
def c7Patterns : List (String → List String) := [findTagMatches "CTF"]

/-- The candidate built from the first occurrence of the duplicated value. -/
def c7Candidate : Candidate :=
  mkCandidate "CTF\x7bdup_flag\x7d"
    ⟨"cmd_000", "strings", "Some text\nCTF\x7bdup_flag\x7d\nMore text"⟩

/-- Witness for C7: the duplicated value yields one candidate, built from
its first occurrence (`cmd_000`, the `strings` output). -/
theorem c7_extract_dedup_by_value_witness :
    c7Candidate ∈ extractFlags c7Patterns c7Results ∧
    (extractFlags c7Patterns c7Results).countP
      (fun c => c.value == "CTF\x7bdup_flag\x7d") ≤ 1 ∧
    (∃ r, (scanPairs c7Patterns c7Results).find?
        (fun p => p.1 == c7Candidate.value) = some (c7Candidate.value, r) ∧
      c7Candidate = mkCandidate c7Candidate.value r) :=
  ⟨by decide,
   (c7_extract_dedup_by_value c7Patterns c7Results).2.1 "CTF\x7bdup_flag\x7d",
   (c7_extract_dedup_by_value c7Patterns c7Results).2.2.1 c7Candidate (by decide)⟩

/-- C9: for the same matched value and tool, a match whose first containing
output line is mostly non-printable (readable ratio < 1/2) scores no higher
than the identical match whose first containing line is clean, and both
scores are clamped to [0.1, 1.0] (here [1, 10] in tenths). -/
theorem c9_noise_penalty_monotone (matchVal tool out1 out2 : String)
    (h1 : ∃ l1, firstContainingLine out1 matchVal = some l1 ∧
      lineIsNoisy l1 = true)
    (h2 : ∃ l2, firstContainingLine out2 matchVal = some l2 ∧
      lineIsNoisy l2 = false) :
    calcConfidence matchVal tool out1 ≤ calcConfidence matchVal tool out2 ∧
    1 ≤ calcConfidence matchVal tool out1 ∧
    calcConfidence matchVal tool out1 ≤ 10 ∧
    1 ≤ calcConfidence matchVal tool out2 ∧
    calcConfidence matchVal tool out2 ≤ 10 := by
  obtain ⟨l1, hf1, hn1⟩ := h1
  obtain ⟨l2, hf2, hn2⟩ := h2
  have e1 : calcConfidence matchVal tool out1 =
      max 1 (min 10 (calcConfidenceBase matchVal tool - 2)) := by
    simp [calcConfidence, hf1, hn1]
  have e2 : calcConfidence matchVal tool out2 =
      max 1 (min 10 (calcConfidenceBase matchVal tool)) := by
    simp [calcConfidence, hf2, hn2]
  rw [e1, e2]
  omega

/-- A noisy output line: the flag is surrounded by control bytes, readable
ratio 6/26 < 1/2. -/
def c9Noisy : String :=
  "\x01\x01\x01\x01\x01\x01\x01\x01CTF\x7bx_y_z\x7d\x01\x01\x01\x01\x01\x01\x01\x01"

/-- A clean output line containing the same flag. -/
def c9Clean : String := "the flag is CTF\x7bx_y_z\x7d here"

/-- Witness for C9: the flag inside the noisy line scores no higher than
the same flag inside the clean line, and the noisy score stays within the
clamp bounds. -/
theorem c9_noise_penalty_monotone_witness :
    calcConfidence "CTF\x7bx_y_z\x7d" "strings" c9Noisy ≤
      calcConfidence "CTF\x7bx_y_z\x7d" "strings" c9Clean ∧
    1 ≤ calcConfidence "CTF\x7bx_y_z\x7d" "strings" c9Noisy :=
  ⟨(c9_noise_penalty_monotone "CTF\x7bx_y_z\x7d" "strings" c9Noisy c9Clean
      ⟨c9Noisy, by decide⟩ ⟨c9Clean, by decide⟩).1,
   (c9_noise_penalty_monotone "CTF\x7bx_y_z\x7d" "strings" c9Noisy c9Clean
      ⟨c9Noisy, by decide⟩ ⟨c9Clean, by decide⟩).2.1⟩

end CTFA
